import Mathlib

/-!
Verification development for the MQTT client shell (`mqtt_client_shell.py`).

The Python source is shallowly embedded: each class method that the claims
touch becomes an executable Lean function over explicit state; the external
protocol client (paho) is an oracle whose per-call result code is passed in
as a parameter; console output is modelled as returned diagnostic flags.
-/

/-- ASCII lowercasing of a character, modelling Python `str.lower` on the
ASCII inputs the console deals with. -/
def lowerChar (c : Char) : Char :=
  if 65 ≤ c.toNat && c.toNat ≤ 90 then Char.ofNat (c.toNat + 32) else c

/-- Does `pat` occur at the start of `s`?  (List-level, structural.) -/
def startsWithChars : List Char → List Char → Bool
  | [], _ => true
  | _ :: _, [] => false
  | p :: ps, c :: cs => p == c && startsWithChars ps cs

/-- Does `pat` occur anywhere inside `s`?  Models Python `pat in s`. -/
def containsChars (pat : List Char) : List Char → Bool
  | [] => pat.isEmpty
  | c :: rest => startsWithChars pat (c :: rest) || containsChars pat rest

/-- Python `str.strip()`: drop whitespace from both ends. -/
def stripChars (s : List Char) : List Char :=
  ((s.dropWhile Char.isWhitespace).reverse.dropWhile Char.isWhitespace).reverse

/-- Python `str.isdigit()` (ASCII fragment): non-empty and all digits. -/
def isdigitStr (s : String) : Bool :=
  !s.data.isEmpty && s.data.all Char.isDigit

/-- Python `int(...)` on a digit string. -/
def strToNat (s : String) : Nat :=
  s.data.foldl (fun acc c => acc * 10 + (c.toNat - 48)) 0

/-- paho `mqtt.MQTT_ERR_SUCCESS`. -/
def MQTT_ERR_SUCCESS : Int := 0

/-- The tokens Python `str2bool` recognises as true. -/
def trueTokens : List (List Char) :=
  ["true".data, "t".data, "yes".data, "y".data, "on".data, "enable".data, "1".data]

/-- The tokens Python `str2bool` recognises as false. -/
def falseTokens : List (List Char) :=
  ["false".data, "f".data, "no".data, "n".data, "off".data, "disable".data, "0".data]

/-- `str2bool(s, default)` from the source: returns the parsed boolean and a
flag recording whether the "Invalid value" diagnostic was printed.  An empty
(falsy) input returns the default silently; otherwise the input is stripped
and lowercased and matched against the recognised tokens. -/
def str2bool (s : String) (default : Bool) : Bool × Bool :=
  if s == "" then (default, false)
  else
    let n := (stripChars s.data).map lowerChar
    if trueTokens.contains n then (true, false)
    else if falseTokens.contains n then (false, false)
    else (default, true)

/-- `Subscription` namedtuple: topic and quality of service.  A missing
(`None`) topic is modelled as the empty string, which is equally falsy. -/
structure Subscription where
  topic : String
  qos : Nat
deriving DecidableEq

/-- `SubscriptionHandler._discard_sub`: remove every entry with the given
topic from the registry. -/
def discard_sub (subs : List Subscription) (topic : String) : List Subscription :=
  subs.filter (fun s => s.topic != topic)

/-- `SubscriptionHandler.subscribe`: with an empty (falsy) topic nothing
happens; otherwise the protocol client is asked to subscribe and, exactly
when it reports `MQTT_ERR_SUCCESS`, entries with the same topic are discarded
and the new Subscription is added.  `result` is the oracle result code of the
protocol call. -/
def subscribe (subs : List Subscription) (sub : Subscription) (result : Int) :
    List Subscription :=
  if sub.topic == "" then subs
  else if result == MQTT_ERR_SUCCESS then discard_sub subs sub.topic ++ [sub]
  else subs

/-- At most one registry entry per topic string. -/
def topicUnique (subs : List Subscription) : Prop :=
  ∀ t : String, (subs.filter (fun s => s.topic == t)).length ≤ 1

/-- The literal sequence placeholder token, the characters of Python's
`"{seq}"` (written here as explicit characters). -/
def seqToken : List Char := ['\x7b', 's', 'e', 'q', '\x7d']

/-- Does the text contain the literal `seqToken`?  Models `"{seq}" in payload`. -/
def containsSeq : List Char → Bool
  | [] => false
  | '\x7b' :: 's' :: 'e' :: 'q' :: '\x7d' :: _ => true
  | _ :: rest => containsSeq rest

/-- Result of `payload.format(seq=n)`: the returned string, a raised
exception, or a replacement field outside the modelled fragment. -/
inductive FmtResult where
  | ok : List Char → FmtResult
  | error : FmtResult
  | unmodeled : FmtResult
deriving DecidableEq

/-- Apply `f` to the output of a successful format; pass errors through. -/
def mapOk (f : List Char → List Char) : FmtResult → FmtResult
  | FmtResult.ok s => FmtResult.ok (f s)
  | r => r

/-- Scan a replacement-field body after its opening brace, tracking brace
nesting (one level is legal inside a format spec): returns the body and the
text after the closing brace, or `none` when the field is unterminated
(which makes `str.format` raise ValueError). -/
def scanField : Nat → List Char → Option (List Char × List Char)
  | _, [] => none
  | depth, c :: rest =>
    if c == '\x7d' then
      if depth == 0 then some ([], rest)
      else
        match scanField (depth - 1) rest with
        | none => none
        | some (b, r) => some (c :: b, r)
    else if c == '\x7b' then
      match scanField (depth + 1) rest with
      | none => none
      | some (b, r) => some (c :: b, r)
    else
      match scanField depth rest with
      | none => none
      | some (b, r) => some (c :: b, r)

/-- The characters of the field name `seq`. -/
def seqName : List Char := ['s', 'e', 'q']

/-- The argument name of a replacement field: the body up to the first `.`,
`[`, `!` or `:` (attribute/index access, conversion, format spec). -/
def fieldArgName (body : List Char) : List Char :=
  body.takeWhile (fun c => !(c == '.' || c == '[' || c == '!' || c == ':'))

/-- Classification of a replacement field under `format(seq=n)`:
`plainSeq` is the exact body `seq` (substituted with `str(n)`);
`badName` is any field whose argument name is not `seq` — guaranteed to
raise (KeyError for another keyword, IndexError for auto-numbering or a
positional index, since no positional arguments are passed);
`seqOther` names `seq` but carries a conversion, format spec, attribute or
index, whose outcome this model leaves open. -/
inductive FieldClass where
  | plainSeq : FieldClass
  | seqOther : FieldClass
  | badName : FieldClass
deriving DecidableEq

def classifyField (body : List Char) : FieldClass :=
  if body == seqName then FieldClass.plainSeq
  else if fieldArgName body == seqName then FieldClass.seqOther
  else FieldClass.badName

/-- One pass of Python `str.format` called with the single keyword `seq`,
processed left to right as CPython does: `\x7b\x7b` and `\x7d\x7d` are brace
escapes producing a literal brace, a lone closing brace or an unterminated
field raises ValueError, a field whose argument name is not `seq` raises
(KeyError/IndexError) when reached, and the exact field `seq` is replaced by
the decimal rendering of `n`.  `fuel` bounds the recursion; each step
consumes at least one character, so the input length suffices. -/
def pyFormatSeqAux (n : Nat) : Nat → List Char → FmtResult
  | _, [] => FmtResult.ok []
  | 0, _ :: _ => FmtResult.unmodeled
  | fuel + 1, c :: rest =>
    if c == '\x7b' then
      match rest with
      | '\x7b' :: rest2 => mapOk (fun out => '\x7b' :: out) (pyFormatSeqAux n fuel rest2)
      | _ =>
        match scanField 0 rest with
        | none => FmtResult.error
        | some (body, r) =>
          match classifyField body with
          | FieldClass.plainSeq =>
              mapOk (fun out => (Nat.repr n).data ++ out) (pyFormatSeqAux n fuel r)
          | FieldClass.badName => FmtResult.error
          | FieldClass.seqOther => FmtResult.unmodeled
    else if c == '\x7d' then
      match rest with
      | '\x7d' :: rest2 => mapOk (fun out => '\x7d' :: out) (pyFormatSeqAux n fuel rest2)
      | _ => FmtResult.error
    else mapOk (fun out => c :: out) (pyFormatSeqAux n fuel rest)

/-- `payload.format(seq=n)` from `MessagePublisher.publish`. -/
def pyFormatSeq (n : Nat) (s : List Char) : FmtResult :=
  pyFormatSeqAux n s.length s

/-- A payload in the plain-substitution fragment, as a list of segments:
non-brace literal characters and placeholder fields. -/
inductive Seg where
  | lit : Char → Seg
  | tok : Seg
deriving DecidableEq

/-- The payload text a segment list denotes. -/
def renderSegs : List Seg → List Char
  | [] => []
  | Seg.lit c :: rest => c :: renderSegs rest
  | Seg.tok :: rest => seqToken ++ renderSegs rest

/-- The same text with every placeholder replaced by the counter. -/
def renderSubst (n : Nat) : List Seg → List Char
  | [] => []
  | Seg.lit c :: rest => c :: renderSubst n rest
  | Seg.tok :: rest => (Nat.repr n).data ++ renderSubst n rest

/-- A well-formed segment list: literal characters are not braces. -/
def segsWF : List Seg → Bool
  | [] => true
  | Seg.lit c :: rest => !(c == '\x7b') && !(c == '\x7d') && segsWF rest
  | Seg.tok :: rest => segsWF rest

/-- A publish payload: decoded text or a raw `bytearray`. -/
inductive Payload where
  | text : List Char → Payload
  | bytes : List Nat → Payload
deriving DecidableEq

/-- Python truthiness test used by `publish`: `None`, the empty string and an
empty bytearray are all falsy. -/
def payloadFalsy : Option Payload → Bool
  | none => true
  | some (Payload.text s) => s.isEmpty
  | some (Payload.bytes b) => b.isEmpty

/-- Python truthiness of the topic argument (`None` or `""`). -/
def topicFalsy : Option String → Bool
  | none => true
  | some t => t == ""

/-- The arguments of one call to the protocol client's `publish`. -/
structure PubCall where
  topic : Option String
  payload : Option Payload
  qos : Nat
  retain : Bool
deriving DecidableEq

/-- Outcome of one `MessagePublisher.publish` call: `done` returns normally
with the new `_msg_seq` and the protocol call made (if any); `raised` is an
exception escaping `publish` — no protocol call, counter unchanged, caught
only at `do_publish`'s dispatch boundary. -/
inductive PublishStep where
  | done : Nat → Option PubCall → PublishStep
  | raised : PublishStep
  | unmodeled : PublishStep
deriving DecidableEq

/-- `MessagePublisher.publish`: `seq` is the current `_msg_seq` (initialised
to 1 by `__init__`), `result` the oracle result code of the protocol call.
A falsy topic aborts with a diagnostic and no call; a falsy payload becomes
a zero-length message; a textual payload containing the literal placeholder
is passed through `format(seq=...)` — whose exceptions propagate out of
`publish` before any client call — and the counter advances exactly when
the client reports `MQTT_ERR_SUCCESS`. -/
def publish (seq : Nat) (topic : Option String) (payload : Option Payload)
    (qos : Nat) (retain : Bool) (result : Int) : PublishStep :=
  if topicFalsy topic then PublishStep.done seq none
  else if payloadFalsy payload then
    PublishStep.done (if result == MQTT_ERR_SUCCESS then seq + 1 else seq)
      (some ⟨topic, none, qos, retain⟩)
  else
    match payload with
    | some (Payload.text s) =>
      if containsSeq s then
        match pyFormatSeq seq s with
        | FmtResult.ok out =>
          PublishStep.done (if result == MQTT_ERR_SUCCESS then seq + 1 else seq)
            (some ⟨topic, some (Payload.text out), qos, retain⟩)
        | FmtResult.error => PublishStep.raised
        | FmtResult.unmodeled => PublishStep.unmodeled
      else
        PublishStep.done (if result == MQTT_ERR_SUCCESS then seq + 1 else seq)
          (some ⟨topic, some (Payload.text s), qos, retain⟩)
    | p =>
      PublishStep.done (if result == MQTT_ERR_SUCCESS then seq + 1 else seq)
        (some ⟨topic, p, qos, retain⟩)

/-- The characters of the payload `"msg {seq}"` used by the spec's example. -/
def msgSeqChars : List Char := ['m', 's', 'g', ' '] ++ seqToken

/-- The characters of the payload whose braces are escaped: an opening brace
doubled, then `seq`, then a closing brace doubled.  It contains the literal
placeholder as a substring, yet `format` un-escapes it to the placeholder
text instead of substituting the counter. -/
def escSeqChars : List Char := ['\x7b', '\x7b', 's', 'e', 'q', '\x7d', '\x7d']

/-- The characters of a payload holding the replacement field `x` followed by
the placeholder: `format(seq=n)` raises KeyError on the first field. -/
def badFieldChars : List Char := ['\x7b', 'x', '\x7d', ' '] ++ seqToken

/-- Default port from `ConnectionArgs.__init__`. -/
def DEFAULT_PORT : Nat := 1883

/-- Default keepalive from `ConnectionArgs.__init__`. -/
def DEFAULT_KEEPALIVE : Nat := 60

/-- The `ConnectionArgs.port` setter on a console-supplied string: returns
the new stored value and whether the "Invalid port value" diagnostic was
printed.  A falsy (empty) input resets to the default; an input failing
`str.isdigit` is rejected and the prior value kept; otherwise `int(value)`
is stored. -/
def port_setter (current : Nat) (value : String) : Nat × Bool :=
  if value == "" then (DEFAULT_PORT, false)
  else if !isdigitStr value then (current, true)
  else (strToNat value, false)

/-- The `ConnectionArgs.keepalive` setter, same shape as `port_setter`. -/
def keepalive_setter (current : Nat) (value : String) : Nat × Bool :=
  if value == "" then (DEFAULT_KEEPALIVE, false)
  else if !isdigitStr value then (current, true)
  else (strToNat value, false)

/-- `ClientArgs.clean_session` setter on a console-supplied string: a falsy
(blank) argument toggles the current value, otherwise `str2bool` parses it
with the current value as default.  Returns the new value and whether the
"Be VERY careful" warning was printed (exactly when the resulting value is
false). -/
def clean_session_set (current : Bool) (value : String) : Bool × Bool :=
  let new := if value == "" then !current else (str2bool value current).1
  (new, !new)

/-- `TLSArgs.tls_insecure` setter on a console-supplied string: the argument
is always a `str`, so it is handed to `str2bool` with the current value as
default — there is no blank-toggle branch.  Returns the new value and whether
the impersonation warning was printed (exactly when the resulting value is
true). -/
def tls_insecure_set (current : Bool) (value : String) : Bool × Bool :=
  let new := (str2bool value current).1
  (new, new)

/-- Outcome of the resource-fetch collaborator (`urlopen` + `read`):
`caught` is a raised `URLError`, the only class `parse_msg_input`'s except
clause handles; `uncaught` is any other exception the retrieval can raise
(ValueError for a malformed locator, OSError or IncompleteRead during the
read), which escapes `parse_msg_input`; `ok` carries the fetched bytes
together with their decoded text when decoding with the reported charset
succeeds (`none` models a `UnicodeDecodeError`, in which case a bytearray is
used). -/
inductive FetchOutcome where
  | caught : FetchOutcome
  | uncaught : FetchOutcome
  | ok : List Nat → Option (List Char) → FetchOutcome
deriving DecidableEq

/-- The characters of the payload marker `"from-url:"`. -/
def fromUrlMarker : List Char := ['f', 'r', 'o', 'm', '-', 'u', 'r', 'l', ':']

/-- `payload.lower().startswith("from-url:")`. -/
def startsWithFromUrl (s : List Char) : Bool :=
  startsWithChars fromUrlMarker (s.map lowerChar)

/-- The `from-url:` branch of `MessagePublisher.parse_msg_input`: given the
original payload token text and the fetch outcome, return the resulting
payload and whether the "Empty payload" diagnostic was printed, or `none`
when the retrieval failure is of a class the except clause does not catch
and the exception propagates.  A caught `URLError` reverts the payload to
the original literal text; zero-length content yields a `None` payload with
a diagnostic; otherwise the decoded text (or, on decode failure, the raw
bytearray) is used. -/
def resolveUrlPayload (original : List Char) (outcome : FetchOutcome) :
    Option (Option Payload × Bool) :=
  match outcome with
  | FetchOutcome.caught => some (some (Payload.text original), false)
  | FetchOutcome.uncaught => none
  | FetchOutcome.ok bs decoded =>
    if bs.length == 0 then some (none, true)
    else
      match decoded with
      | some s => some (some (Payload.text s), false)
      | none => some (some (Payload.bytes bs), false)

/-- The `Message` namedtuple produced by `parse_msg_input`. -/
structure Message where
  topic : Option String
  payload : Option Payload
  qos : Nat
  retain : Bool
deriving DecidableEq

/-- `MessagePublisher.parse_msg_input` after `shlex` tokenisation (the four
positional tokens, absent ones `none`), with the resource fetcher as an
oracle keyed by the locator characters after the marker.  Returns the parsed
`Message` with the empty-fetched-payload diagnostic flag, or `none` when an
uncaught retrieval exception propagates out of the method. -/
def parse_msg_input (topicTok payloadTok qosTok retainTok : Option String)
    (fetch : List Char → FetchOutcome) : Option (Message × Bool) :=
  let pr : Option (Option Payload × Bool) :=
    match payloadTok with
    | none => some (none, false)
    | some p =>
      if p != "" && startsWithFromUrl p.data then
        resolveUrlPayload p.data (fetch (p.data.drop 9))
      else some (some (Payload.text p.data), false)
  match pr with
  | none => none
  | some (payload, d) =>
    let qos : Nat :=
      match qosTok with
      | none => 0
      | some q => if isdigitStr q && decide (strToNat q ≤ 2) then strToNat q else 0
    let retain : Bool :=
      match retainTok with
      | none => false
      | some r => (str2bool r false).1
    some ({ topic := topicTok, payload := payload, qos := qos, retain := retain }, d)

/-- `MessagePublisher.parse_publish`: parse the tokens, then publish the
resulting Message.  Returns the publish outcome and the empty-payload
diagnostic flag, or `none` when parsing raised (so no protocol call is
attempted; `do_publish` catches the exception at the dispatch boundary). -/
def parse_publish (seq : Nat) (topicTok payloadTok qosTok retainTok : Option String)
    (fetch : List Char → FetchOutcome) (result : Int) :
    Option (PublishStep × Bool) :=
  match parse_msg_input topicTok payloadTok qosTok retainTok fetch with
  | none => none
  | some (msg, d) =>
    some (publish seq msg.topic msg.payload msg.qos msg.retain result, d)

/-- The recording and playback file slots of `ConsoleContext`; a file handle
is modelled by its name. -/
structure ConsoleFiles where
  recording_file : Option String
  playback_file : Option String
deriving DecidableEq

/-- `ConsoleContext.close_recording_file`: closes the file if one is open,
otherwise does nothing. -/
def close_recording_file (c : ConsoleFiles) : ConsoleFiles :=
  match c.recording_file with
  | none => c
  | some _ => { c with recording_file := none }

/-- `ConsoleContext.close_playback_file`: closes the file if one is open,
otherwise does nothing. -/
def close_playback_file (c : ConsoleFiles) : ConsoleFiles :=
  match c.playback_file with
  | none => c
  | some _ => { c with playback_file := none }

/-- First whitespace-delimited token of a line: the dispatch keyword the
`cmd` line reader extracts. -/
def firstTok : List Char → List Char
  | [] => []
  | c :: rest => if c == ' ' then [] else c :: firstTok rest

/-- The command keyword of a line. -/
def lineCmd (line : String) : String := String.mk (firstTok line.data)

/-- Does the lowercased line contain `"playback"` or `"stop_recording"`
anywhere?  This is the exclusion test of `RootConsole.precmd`. -/
def controlLine (line : String) : Bool :=
  containsChars "playback".data (line.data.map lowerChar)
  || containsChars "stop_recording".data (line.data.map lowerChar)

/-- `RootConsole.precmd` acting on the recording-file content (a list of
recorded lines; `none` when no recording file is open): a non-empty line not
containing either control substring is appended. -/
def precmdRecord (rec : Option (List String)) (line : String) :
    Option (List String) :=
  match rec with
  | none => none
  | some contents =>
    if line != "" && !controlLine line then some (contents ++ [line])
    else some contents

/-- Submitting a sequence of lines through `precmd` while recording. -/
def runPrecmds (rec : Option (List String)) (lines : List String) :
    Option (List String) :=
  lines.foldl precmdRecord rec

/-- State of the playback engine: remaining playback-file lines (newline
already stripped; `none` when no file is open), the console's pending
command queue, and the lines echoed so far. -/
structure PlaybackState where
  playback_file : Option (List String)
  cmdqueue : List String
  echoed : List String
deriving DecidableEq

/-- `RootConsole._playback_file_cmd`: with an open playback file, read the
next line; a non-empty line is appended to the command queue (via
`cmdqueue.extend`) and echoed; end of file or a blank line closes the file. -/
def playback_file_cmd (st : PlaybackState) : PlaybackState :=
  match st.playback_file with
  | none => st
  | some [] => { st with playback_file := none }
  | some (l :: rest) =>
    if l == "" then { st with playback_file := none }
    else
      { st with playback_file := some rest,
                cmdqueue := st.cmdqueue ++ [l],
                echoed := st.echoed ++ [l] }

/-- The `cmd.cmdloop` queue discipline restricted to playback: commands are
popped from the front of the queue; after each dispatched command the engine
runs `playback_file_cmd` again; an empty queue means the next line would come
from the operator, where this model stops.  `fuel` bounds the iteration.
Returns the dispatched commands in order. -/
def playLoop : Nat → PlaybackState → List String
  | 0, _ => []
  | fuel + 1, st =>
    match st.cmdqueue with
    | [] => []
    | c :: rest => c :: playLoop fuel (playback_file_cmd { st with cmdqueue := rest })

/-- Calls made on the protocol client, as observed by the Connection console. -/
inductive ClientEvent where
  | publishCall : ClientEvent
  | subscribeCall : ClientEvent
  | unsubscribeCall : ClientEvent
  | loopStart : ClientEvent
  | disconnect : ClientEvent
  | loopStop : ClientEvent
deriving DecidableEq

/-- Does this Messaging-console line end the `cmdloop`?  `do_disconnect`,
`do_exit`, `do_quit` and `do_EOF` (the line `cmd` synthesises at end of
input) all return `True`. -/
def messagingStops (line : String) : Bool :=
  lineCmd line == "disconnect" || lineCmd line == "exit"
  || lineCmd line == "quit" || lineCmd line == "EOF"

/-- Protocol-client calls a single Messaging-console line can trigger.  The
session-ending commands call nothing on the client themselves. -/
def lineClientEvents (line : String) : List ClientEvent :=
  if lineCmd line == "publish" then [ClientEvent.publishCall]
  else if lineCmd line == "subscribe" then [ClientEvent.subscribeCall]
  else if lineCmd line == "unsubscribe" || lineCmd line == "unsubscribe_all" then
    [ClientEvent.unsubscribeCall]
  else []

/-- The Messaging `cmdloop` over a stream of input lines: dispatch each line
until one returns `True`; exhausting the input is end-of-input, which `cmd`
turns into an `EOF` dispatch that also ends the loop. -/
def messagingLoop : List String → List ClientEvent
  | [] => []
  | line :: rest =>
    if messagingStops line then lineClientEvents line
    else lineClientEvents line ++ messagingLoop rest

/-- The successful branch of `ConnectionConsole.do_connect`: start the
background loop, run the Messaging console to completion, then
unconditionally disconnect and stop the background loop. -/
def connectSession (cmds : List String) : List ClientEvent :=
  ClientEvent.loopStart :: (messagingLoop cmds ++ [ClientEvent.disconnect, ClientEvent.loopStop])

lemma discard_sub_filter_self (l : List Subscription) (t : String) :
    (discard_sub l t).filter (fun s => s.topic == t) = [] := by
  simp only [discard_sub]
  induction l with
  | nil => rfl
  | cons a l ih =>
    by_cases h : a.topic = t
    · simp [List.filter_cons, h, ih]
    · simp [List.filter_cons, h, ih]

lemma discard_sub_filter_le (l : List Subscription) (u t : String) :
    ((discard_sub l u).filter (fun s => s.topic == t)).length
      ≤ (l.filter (fun s => s.topic == t)).length := by
  induction l with
  | nil => simp [discard_sub]
  | cons a l ih =>
    simp only [discard_sub, List.filter_cons] at ih ⊢
    by_cases h1 : (a.topic != u) = true
    · rw [if_pos h1, List.filter_cons]
      by_cases h2 : (a.topic == t) = true
      · rw [if_pos h2, if_pos h2]
        exact Nat.succ_le_succ ih
      · rw [if_neg h2, if_neg h2]
        exact ih
    · rw [if_neg h1]
      by_cases h2 : (a.topic == t) = true
      · rw [if_pos h2]
        exact le_trans ih (Nat.le_succ _)
      · rw [if_neg h2]
        exact ih

lemma subscribe_topicUnique (subs : List Subscription) (sub : Subscription) (r : Int)
    (hu : topicUnique subs) : topicUnique (subscribe subs sub r) := by
  unfold subscribe
  split
  · exact hu
  · split
    · intro t
      rw [List.filter_append]
      by_cases h : sub.topic = t
      · rw [h, discard_sub_filter_self]
        simp [h]
      · have : [sub].filter (fun s => s.topic == t) = [] := by simp [h]
        rw [this, List.append_nil]
        exact le_trans (discard_sub_filter_le subs sub.topic t) (hu t)
    · exact hu

/-- C1: the subscription registry keeps at most one Subscription per topic:
subscribing preserves the uniqueness invariant, a second accepted subscribe
to the same topic (any qos) leaves exactly the second call's entry for that
topic, and a protocol result other than local acceptance leaves the registry
unchanged. -/
theorem subscribe_registry_topic_unique
    (subs : List Subscription) (sub : Subscription) (t : String) (q1 q2 : Nat) (r : Int)
    (ht : t ≠ "") (hu : topicUnique subs) :
    topicUnique (subscribe subs sub r)
    ∧ ((subscribe (subscribe subs ⟨t, q1⟩ MQTT_ERR_SUCCESS) ⟨t, q2⟩ MQTT_ERR_SUCCESS).filter
        (fun s => s.topic == t) = [⟨t, q2⟩])
    ∧ (r ≠ MQTT_ERR_SUCCESS → subscribe subs ⟨t, q1⟩ r = subs) := by
  refine ⟨subscribe_topicUnique subs sub r hu, ?_, ?_⟩
  · have h1 : subscribe subs ⟨t, q1⟩ MQTT_ERR_SUCCESS
        = discard_sub subs t ++ [⟨t, q1⟩] := by
      simp [subscribe, ht]
    have h2 : subscribe (discard_sub subs t ++ [⟨t, q1⟩]) ⟨t, q2⟩ MQTT_ERR_SUCCESS
        = discard_sub (discard_sub subs t ++ [⟨t, q1⟩]) t ++ [⟨t, q2⟩] := by
      simp [subscribe, ht]
    rw [h1, h2, List.filter_append, discard_sub_filter_self]
    simp [discard_sub]
  · intro hr
    simp [subscribe, ht, hr]

/-- C1 witness: the theorem instantiated at the empty registry, topic
`"a"`, qos 0 then 1, and a rejected result code 1. -/
theorem subscribe_registry_topic_unique_witness :
    topicUnique (subscribe [] ⟨"b", 2⟩ 1)
    ∧ ((subscribe (subscribe [] ⟨"a", 0⟩ MQTT_ERR_SUCCESS) ⟨"a", 1⟩ MQTT_ERR_SUCCESS).filter
        (fun s => s.topic == "a") = [⟨"a", 1⟩])
    ∧ ((1 : Int) ≠ MQTT_ERR_SUCCESS → subscribe [] ⟨"a", 0⟩ 1 = []) :=
  subscribe_registry_topic_unique [] ⟨"b", 2⟩ "a" 0 1 1 (by decide)
    (fun t => by simp [List.filter])

lemma containsSeq_not_nil (s : List Char) (hs : containsSeq s = true) :
    s.isEmpty = false := by
  cases s with
  | nil => exact absurd hs (by decide)
  | cons c rest => rfl

/-- C2 counterexample: the payload of `escSeqChars` contains the literal
placeholder token, yet an accepted publish transmits the brace-unescaped
text — still holding the un-substituted token and no digit of the counter —
because `format` treats the doubled braces as escapes; and the payload of
`badFieldChars` also contains the token, yet `format` raises KeyError on its
other replacement field, so no client call is made at all. -/
theorem seq_format_escape_and_error :
    containsSeq escSeqChars = true
    ∧ publish 1 (some "t") (some (Payload.text escSeqChars)) 0 false MQTT_ERR_SUCCESS
        = PublishStep.done 2 (some ⟨some "t", some (Payload.text seqToken), 0, false⟩)
    ∧ containsSeq seqToken = true
    ∧ containsChars (Nat.repr 1).data seqToken = false
    ∧ containsSeq badFieldChars = true
    ∧ publish 1 (some "t") (some (Payload.text badFieldChars)) 0 false MQTT_ERR_SUCCESS
        = PublishStep.raised := by decide

lemma pyFormatSeqAux_nil (n fuel : Nat) : pyFormatSeqAux n fuel [] = FmtResult.ok [] := by
  cases fuel <;> rfl

lemma pyFormatSeqAux_renderSegs (n : Nat) (segs : List Seg) (hwf : segsWF segs = true) :
    ∀ fuel, (renderSegs segs).length ≤ fuel →
      pyFormatSeqAux n fuel (renderSegs segs) = FmtResult.ok (renderSubst n segs) := by
  induction segs with
  | nil => intro fuel _; exact pyFormatSeqAux_nil n fuel
  | cons seg rest ih =>
    cases seg with
    | lit c =>
      have h := hwf
      simp only [segsWF, Bool.and_eq_true, Bool.not_eq_true'] at h
      obtain ⟨⟨hc1, hc2⟩, hwfr⟩ := h
      intro fuel hl
      have hrc : renderSegs (Seg.lit c :: rest) = c :: renderSegs rest := rfl
      rw [hrc] at hl ⊢
      cases fuel with
      | zero => simp at hl
      | succ f =>
        have hstep : pyFormatSeqAux n (f + 1) (c :: renderSegs rest)
            = mapOk (fun out => c :: out) (pyFormatSeqAux n f (renderSegs rest)) := by
          simp only [pyFormatSeqAux, hc1, hc2]
          simp
        rw [hstep, ih hwfr f (by simp at hl; omega)]
        rfl
    | tok =>
      have hwfr : segsWF rest = true := hwf
      intro fuel hl
      have hrc : renderSegs (Seg.tok :: rest)
          = '\x7b' :: 's' :: 'e' :: 'q' :: '\x7d' :: renderSegs rest := rfl
      rw [hrc] at hl ⊢
      cases fuel with
      | zero => simp at hl
      | succ f =>
        have hstep : pyFormatSeqAux n (f + 1)
              ('\x7b' :: 's' :: 'e' :: 'q' :: '\x7d' :: renderSegs rest)
            = mapOk (fun out => (Nat.repr n).data ++ out)
                (pyFormatSeqAux n f (renderSegs rest)) := rfl
        rw [hstep, ih hwfr f (by simp at hl; omega)]
        rfl

/-- C2 amended: on payloads built from non-brace literal characters and
plain placeholder fields, `format(seq=n)` returns the text with every
placeholder replaced by the counter's decimal rendering; such a payload
containing the token is transmitted substituted, with the counter advancing
exactly on a locally accepted result (three accepted publishes of the
example payload transmit the three expected messages); and whenever
formatting a token-containing payload raises, no protocol call is made and
the counter is unchanged. -/
theorem publisher_seq_substitution_plain
    (n qos : Nat) (topic : String) (segs : List Seg) (retain : Bool) (r : Int)
    (s' : List Char)
    (ht : topic ≠ "") (hwf : segsWF segs = true) :
    pyFormatSeq n (renderSegs segs) = FmtResult.ok (renderSubst n segs)
    ∧ (containsSeq (renderSegs segs) = true →
        publish n (some topic) (some (Payload.text (renderSegs segs))) qos retain
            MQTT_ERR_SUCCESS
          = PublishStep.done (n + 1)
              (some ⟨some topic, some (Payload.text (renderSubst n segs)), qos, retain⟩))
    ∧ (containsSeq (renderSegs segs) = true → r ≠ MQTT_ERR_SUCCESS →
        publish n (some topic) (some (Payload.text (renderSegs segs))) qos retain r
          = PublishStep.done n
              (some ⟨some topic, some (Payload.text (renderSubst n segs)), qos, retain⟩))
    ∧ (pyFormatSeq n s' = FmtResult.error → containsSeq s' = true →
        publish n (some topic) (some (Payload.text s')) qos retain r
          = PublishStep.raised)
    ∧ (publish 1 (some "t") (some (Payload.text msgSeqChars)) 0 false MQTT_ERR_SUCCESS
        = PublishStep.done 2 (some ⟨some "t", some (Payload.text "msg 1".data), 0, false⟩)
      ∧ publish 2 (some "t") (some (Payload.text msgSeqChars)) 0 false MQTT_ERR_SUCCESS
        = PublishStep.done 3 (some ⟨some "t", some (Payload.text "msg 2".data), 0, false⟩)
      ∧ publish 3 (some "t") (some (Payload.text msgSeqChars)) 0 false MQTT_ERR_SUCCESS
        = PublishStep.done 4 (some ⟨some "t", some (Payload.text "msg 3".data), 0, false⟩)) := by
  have hfmt : pyFormatSeq n (renderSegs segs) = FmtResult.ok (renderSubst n segs) :=
    pyFormatSeqAux_renderSegs n segs hwf (renderSegs segs).length (le_refl _)
  refine ⟨hfmt, ?_, ?_, ?_, by decide⟩
  · intro hcs
    have hne := containsSeq_not_nil _ hcs
    simp [publish, topicFalsy, payloadFalsy, ht, hcs, hne, hfmt]
  · intro hcs hr
    have hne := containsSeq_not_nil _ hcs
    simp [publish, topicFalsy, payloadFalsy, ht, hcs, hne, hfmt, hr]
  · intro herr hcs
    have hne := containsSeq_not_nil _ hcs
    simp [publish, topicFalsy, payloadFalsy, ht, hcs, hne, herr]

/-- C2 witness: the amended theorem instantiated at counter 7 with the
segment payload rendering to a literal `m` followed by the placeholder. -/
theorem publisher_seq_substitution_plain_witness :
    pyFormatSeq 7 (renderSegs [Seg.lit 'm', Seg.tok])
      = FmtResult.ok (renderSubst 7 [Seg.lit 'm', Seg.tok]) :=
  (publisher_seq_substitution_plain 7 0 "t" [Seg.lit 'm', Seg.tok] false 1 []
    (by decide) (by decide)).1

/-- C3: the port and keepalive setters accept the input `"0"` — a non-empty
string that does not denote a positive integer — storing 0 with no
diagnostic, so the stored value is changed and is not positive. -/
theorem port_keepalive_zero_accepted :
    port_setter 1883 "0" = (0, false)
    ∧ keepalive_setter 60 "0" = (0, false)
    ∧ ¬ 0 < (port_setter 1883 "0").1
    ∧ (port_setter 1883 "0").1 ≠ 1883 := by decide

lemma lineClientEvents_no_teardown (line : String) :
    (lineClientEvents line).count ClientEvent.disconnect = 0
    ∧ (lineClientEvents line).count ClientEvent.loopStop = 0 := by
  constructor <;>
  · unfold lineClientEvents
    repeat' split
    all_goals decide

lemma messagingLoop_no_teardown (cmds : List String) :
    (messagingLoop cmds).count ClientEvent.disconnect = 0
    ∧ (messagingLoop cmds).count ClientEvent.loopStop = 0 := by
  induction cmds with
  | nil => decide
  | cons line rest ih =>
    unfold messagingLoop
    by_cases h : messagingStops line = true
    · simp only [h, if_true]
      exact lineClientEvents_no_teardown line
    · simp only [h, if_false, Bool.false_eq_true, List.count_append]
      constructor
      · rw [(lineClientEvents_no_teardown line).1, ih.1]
      · rw [(lineClientEvents_no_teardown line).2, ih.2]

/-- C4: the Messaging command loop itself never calls the client's
disconnect or background-loop-stop, and a full `do_connect` session — the
loop run to completion by any ending line (`disconnect`, `exit`, `quit`,
`EOF`) or by exhausting the input — performs exactly one disconnect call and
exactly one loop-stop call, both after the loop's own events. -/
theorem messaging_cleanup_once (cmds : List String) :
    (messagingLoop cmds).count ClientEvent.disconnect = 0
    ∧ (messagingLoop cmds).count ClientEvent.loopStop = 0
    ∧ (connectSession cmds).count ClientEvent.disconnect = 1
    ∧ (connectSession cmds).count ClientEvent.loopStop = 1 := by
  have h := messagingLoop_no_teardown cmds
  refine ⟨h.1, h.2, ?_, ?_⟩ <;>
    simp [connectSession, List.count_cons, List.count_append, h.1, h.2]

/-- C5 counterexample: the line `"publish a playback"` invokes the `publish`
command, not `playback` or `stop_recording`, yet while recording it is not
appended to the recording file, because `precmd` tests for the substrings
anywhere in the lowercased line. -/
theorem recording_command_overexclusion :
    lineCmd "publish a playback" = "publish"
    ∧ runPrecmds (some []) ["publish a playback"] = some [] := by decide

/-- C5 amended: while a recording file is open, the lines appended are
exactly the non-empty submitted lines whose lowercased text does not contain
the substring `"playback"` or `"stop_recording"` anywhere (a superset of the
lines invoking those two commands). -/
theorem recording_substring_filter (lines init : List String) :
    runPrecmds (some init) lines
      = some (init ++ lines.filter (fun l => l != "" && !controlLine l)) := by
  induction lines generalizing init with
  | nil => simp [runPrecmds]
  | cons l ls ih =>
    by_cases h : (l != "" && !controlLine l) = true
    · have hstep : runPrecmds (some init) (l :: ls) = runPrecmds (some (init ++ [l])) ls := by
        simp [runPrecmds, List.foldl, precmdRecord, h]
      rw [hstep, ih, List.filter_cons, if_pos h]
      simp
    · have hstep : runPrecmds (some init) (l :: ls) = runPrecmds (some init) ls := by
        simp [runPrecmds, List.foldl, precmdRecord, h]
      rw [hstep, ih, List.filter_cons, if_neg h]

/-- C6 counterexample: with a command already pending in the queue, the line
read from the playback file is appended behind it (`cmdqueue.extend`), so the
queued command — not the playback line — executes first; the claim's
"pushed to the front" would give the opposite order. -/
theorem playback_line_goes_to_back :
    (playback_file_cmd ⟨some ["b"], ["a"], []⟩).cmdqueue = ["a", "b"]
    ∧ (playback_file_cmd ⟨some ["b"], ["a"], []⟩).cmdqueue ≠ ["b", "a"] := by decide

lemma playLoop_file_order (ls : List String) (e : List String)
    (h : ∀ l ∈ ls, l ≠ "") :
    playLoop (ls.length + 1) (playback_file_cmd ⟨some ls, [], e⟩) = ls := by
  induction ls generalizing e with
  | nil => rfl
  | cons l ls ih =>
    have hl : l ≠ "" := h l (List.mem_cons_self _ _)
    have hls : ∀ x ∈ ls, x ≠ "" := fun x hx => h x (List.mem_cons_of_mem _ hx)
    have hstep : playback_file_cmd ⟨some (l :: ls), [], e⟩
        = ⟨some ls, [l], e ++ [l]⟩ := by
      simp [playback_file_cmd, hl]
    rw [List.length_cons, hstep]
    show l :: playLoop (ls.length + 1) (playback_file_cmd ⟨some ls, [], e ++ [l]⟩) = l :: ls
    rw [ih (e ++ [l]) hls]

/-- C6 amended: when the engine checks an open playback file, a non-empty
line is appended to the END of the pending command queue and echoed, while
end of file or a blank line closes the file; because queued commands are
consumed before operator input, a playback file of non-blank lines is
executed exactly in file order. -/
theorem playback_engine_step_and_order (st : PlaybackState) (l : String) (ls : List String)
    (hl : l ≠ "") (hls : ∀ x ∈ ls, x ≠ "") :
    playback_file_cmd { st with playback_file := some (l :: ls) }
        = { st with playback_file := some ls,
                    cmdqueue := st.cmdqueue ++ [l], echoed := st.echoed ++ [l] }
    ∧ playback_file_cmd { st with playback_file := some ("" :: ls) }
        = { st with playback_file := none }
    ∧ playback_file_cmd { st with playback_file := some [] }
        = { st with playback_file := none }
    ∧ playback_file_cmd { st with playback_file := none }
        = { st with playback_file := none }
    ∧ playLoop (ls.length + 1) (playback_file_cmd ⟨some ls, [], []⟩) = ls := by
  refine ⟨?_, ?_, rfl, rfl, playLoop_file_order ls [] hls⟩
  · simp [playback_file_cmd, hl]
  · simp [playback_file_cmd]

/-- C6 witness: the amended theorem instantiated at a closed playback state
and the one-line file `["y"]`. -/
theorem playback_engine_step_and_order_witness :
    playLoop (List.length ["y"] + 1) (playback_file_cmd ⟨some ["y"], [], []⟩) = ["y"] :=
  (playback_engine_step_and_order ⟨none, [], []⟩ "x" ["y"] (by decide) (by decide)).2.2.2.2

/-- C7 counterexample: supplying a blank argument to the `tls_insecure`
setter does not toggle the current value — the argument is a string, so it
goes through `str2bool`, whose empty-input branch returns the current value
unchanged. -/
theorem tls_insecure_blank_not_toggled :
    (tls_insecure_set false "").1 = false
    ∧ (tls_insecure_set false "").1 ≠ !false := by decide

/-- C7 amended: a blank argument toggles `clean_session` (only); setting
`clean_session` to `"false"` sets it to false unconditionally and emits the
safety warning; a blank argument to `tls_insecure` leaves its value
unchanged. -/
theorem clean_session_toggle_tls_insecure_not (b : Bool) :
    (clean_session_set b "").1 = !b
    ∧ clean_session_set b "false" = (false, true)
    ∧ (tls_insecure_set b "").1 = b := by
  cases b <;> decide

/-- C9: closing the recording file and closing the playback file are
idempotent, and closing when the corresponding file slot is empty leaves the
context unchanged. -/
theorem close_files_idempotent (c : ConsoleFiles) :
    close_recording_file (close_recording_file c) = close_recording_file c
    ∧ close_playback_file (close_playback_file c) = close_playback_file c
    ∧ close_recording_file { c with recording_file := none }
        = { c with recording_file := none }
    ∧ close_playback_file { c with playback_file := none }
        = { c with playback_file := none } := by
  obtain ⟨r, p⟩ := c
  cases r <;> cases p <;> exact ⟨rfl, rfl, rfl, rfl⟩

/-- C8 counterexample: retrieving the resource for the payload token
`"from-url:junk"` fails with ValueError (an unknown locator type), a class
the except clause does not catch: no Message is produced and the publish is
aborted with no protocol call, against the claim's "never aborted". -/
theorem url_fetch_uncaught_aborts :
    parse_msg_input (some "a") (some "from-url:junk") none none
        (fun _ => FetchOutcome.uncaught) = none
    ∧ parse_publish 1 (some "a") (some "from-url:junk") none none
        (fun _ => FetchOutcome.uncaught) MQTT_ERR_SUCCESS = none := by decide

/-- C8 amended: when the retrieval fails with the error class the code
catches (`URLError`), the failure is logged, the parsed Message carries the
original literal payload text (marker included) unchanged, and the publish
proceeds to issue the protocol call with that literal payload; a retrieval
failure of any other class propagates out of parsing, so the publish is
aborted with no protocol call and is caught only at the command-dispatch
boundary. -/
theorem url_fetch_caught_falls_back
    (t p : String) (qTok rTok : Option String) (fetch : List Char → FetchOutcome)
    (seq : Nat) (r : Int)
    (hm : startsWithFromUrl p.data = true)
    (hf : fetch (p.data.drop 9) = FetchOutcome.caught)
    (ht : t ≠ "") (hns : containsSeq p.data = false) :
    (parse_msg_input (some t) (some p) qTok rTok fetch).map (fun md => md.1.payload)
        = some (some (Payload.text p.data))
    ∧ (∃ q : Nat, ∃ b : Bool,
        parse_publish seq (some t) (some p) qTok rTok fetch MQTT_ERR_SUCCESS
          = some (PublishStep.done (seq + 1)
              (some ⟨some t, some (Payload.text p.data), q, b⟩), false))
    ∧ (∀ fetch2 : List Char → FetchOutcome,
        fetch2 (p.data.drop 9) = FetchOutcome.uncaught →
        parse_publish seq (some t) (some p) qTok rTok fetch2 r = none) := by
  have hp : p ≠ "" := by
    intro h
    rw [h] at hm
    exact absurd hm (by decide)
  have hd : p.data.isEmpty = false := by
    cases hpd : p.data with
    | nil =>
      rw [hpd] at hm
      exact absurd hm (by decide)
    | cons a l => rfl
  refine ⟨?_, ?_, ?_⟩
  · simp [parse_msg_input, hp, hm, hf, resolveUrlPayload]
  · refine ⟨(match qTok with
      | none => 0
      | some q => if isdigitStr q && decide (strToNat q ≤ 2) then strToNat q else 0),
      (match rTok with | none => false | some rr => (str2bool rr false).1), ?_⟩
    simp [parse_publish, parse_msg_input, hp, hm, hf, resolveUrlPayload,
      publish, topicFalsy, payloadFalsy, ht, hd, hns]
  · intro fetch2 hf2
    simp [parse_publish, parse_msg_input, hp, hm, hf2, resolveUrlPayload]

/-- C8 witness: the amended theorem instantiated at topic `"a"`, payload
token `"from-url:x"` and a fetcher failing with the caught class. -/
theorem url_fetch_caught_falls_back_witness :
    (parse_msg_input (some "a") (some "from-url:x") none none
        (fun _ => FetchOutcome.caught)).map (fun md => md.1.payload)
      = some (some (Payload.text "from-url:x".data)) :=
  (url_fetch_caught_falls_back "a" "from-url:x" none none (fun _ => FetchOutcome.caught)
    1 0 (by decide) rfl (by decide) (by decide)).1

/-- C10: when the fetch succeeds but returns zero-length content, the parsed
Message's payload is `None` (not the literal marker text), the empty-payload
diagnostic is emitted, and publishing the Message issues a zero-length
protocol call. -/
theorem url_fetch_empty_content
    (t p : String) (fetch : List Char → FetchOutcome) (decoded : Option (List Char))
    (seq : Nat) (r : Int)
    (hm : startsWithFromUrl p.data = true)
    (hf : fetch (p.data.drop 9) = FetchOutcome.ok [] decoded)
    (ht : t ≠ "") :
    (parse_msg_input (some t) (some p) none none fetch).map (fun md => md.1.payload)
        = some none
    ∧ (parse_msg_input (some t) (some p) none none fetch).map (fun md => md.2)
        = some true
    ∧ parse_publish seq (some t) (some p) none none fetch r
        = some (PublishStep.done (if r == MQTT_ERR_SUCCESS then seq + 1 else seq)
            (some ⟨some t, none, 0, false⟩), true) := by
  have hp : p ≠ "" := by
    intro h
    rw [h] at hm
    exact absurd hm (by decide)
  refine ⟨?_, ?_, ?_⟩
  · simp [parse_msg_input, hp, hm, hf, resolveUrlPayload]
  · simp [parse_msg_input, hp, hm, hf, resolveUrlPayload]
  · simp [parse_publish, parse_msg_input, hp, hm, hf, resolveUrlPayload,
      publish, topicFalsy, payloadFalsy, ht]

/-- C10 witness: the theorem instantiated at topic `"a"`, payload token
`"from-url:x"` and a fetcher returning zero-length content. -/
theorem url_fetch_empty_content_witness :
    (parse_msg_input (some "a") (some "from-url:x") none none
        (fun _ => FetchOutcome.ok [] none)).map (fun md => md.1.payload)
      = some none :=
  (url_fetch_empty_content "a" "from-url:x" (fun _ => FetchOutcome.ok [] none) none
    1 0 (by decide) rfl (by decide)).1
